import Mathlib

/-!
Verification development for the Luminis AI Library Chatbot repository.

The repository sources contain the TypeScript chat frontend
(`src/services/api.ts`, `src/frontend/components/ChatPage.tsx`); those files
are embedded directly below.  The retrieval-and-generation core described in
the design document (Vector Index search, Session window, Context Composer,
Orchestrator) has no implementation in the repository sources, so those
components are modelled from the specification text; each such definition is
marked `Modelled from the spec:` in its doc comment.
-/

namespace Luminis

/-! ### Embedding of `src/services/api.ts` -/

/-- Language toggle of the UI (`languageStore`): Turkish or English. -/
inductive Lang
  | tr
  | en
deriving DecidableEq, Repr

/-- The `ChatMessage` interface of `api.ts`: `message`, optional `response`,
optional `timestamp`. -/
structure ChatMessage where
  message : String
  response : Option String
  timestamp : Option String
deriving DecidableEq, Repr

/-- The parsed JSON body of a `/api/chat` reply as `sendChatMessage` consumes
it: a `success` flag, an optional `error` text, the echoed `user_message`
and the generated `response`. -/
structure ChatBody where
  success : Bool
  error : Option String
  user_message : String
  response : String
deriving DecidableEq, Repr

/-- The `fetch` result observed by `sendChatMessage`: the `ok` flag, the
HTTP `status`, and the parsed JSON `body`. -/
structure HttpResponse where
  ok : Bool
  status : Nat
  body : ChatBody
deriving DecidableEq, Repr

/-- The errors `sendChatMessage` throws: an HTTP error for a non-ok status,
or a backend error carrying the body's error text. -/
inductive ApiError where
  | httpError (status : Nat)
  | backendError (msg : String)
deriving DecidableEq, Repr

/-- Key-value pairs of the JSON request body built by `sendChatMessage`
(api.ts: `JSON.stringify(\x7b message, language \x7d)`); the `language` key is
omitted when the argument is undefined. -/
def chatRequestFields (message : String) (language : Option String) :
    List (String × String) :=
  ("message", message) ::
    (match language with
     | some l => [("language", l)]
     | none => [])

/-- The `message` property of the `Error` values `sendChatMessage` throws:
`HTTP error! status: N` for a non-ok response, otherwise the body's error
text (already defaulted by `sendChatMessage`). -/
def apiErrorMessage : ApiError → String
  | ApiError.httpError status => "HTTP error! status: " ++ toString status
  | ApiError.backendError msg => msg

/-- `sendChatMessage` of `api.ts`, given the observed HTTP response and the
current time string (`new Date().toISOString()`): throws on a non-ok status,
throws the body's error (defaulted to the Turkish message) when `success` is
not true, and otherwise resolves with
`\x7b message: user_message, response, timestamp \x7d`. -/
def sendChatMessage (resp : HttpResponse) (now : String) :
    Except ApiError ChatMessage :=
  if !resp.ok then
    Except.error (ApiError.httpError resp.status)
  else if !resp.body.success then
    Except.error
      (ApiError.backendError (resp.body.error.getD "Chat mesajı gönderilemedi"))
  else
    Except.ok
      { message := resp.body.user_message
        response := some resp.body.response
        timestamp := some now }

/-! ### Embedding of `src/frontend/components/ChatPage.tsx` -/

/-- The `t.error` label of ChatPage's translations. -/
def errorLabel : Lang → String
  | Lang.tr => "Hata:"
  | Lang.en => "Error:"

/-- The `t.unknownError` text of ChatPage's translations. -/
def unknownErrorText : Lang → String
  | Lang.tr => "Bilinmeyen hata"
  | Lang.en => "Unknown error"

/-- The reply text ChatPage's `handleSendMessage` appends in its catch
branch: the localized error label, a space, then the thrown error's message
(or the localized unknown-error text when the thrown value is not an
`Error`). -/
def chatErrorReply (lang : Lang) (errMsg : Option String) : String :=
  errorLabel lang ++ " " ++ errMsg.getD (unknownErrorText lang)

/-- JS `String.prototype.trim` modelled on the character list: leading and
trailing whitespace removed. -/
def jsTrim (s : String) : String :=
  String.mk (((s.data.dropWhile Char.isWhitespace).reverse.dropWhile
    Char.isWhitespace).reverse)

/-- An entry of ChatPage's `messages` state: a user `message` (empty for
assistant entries), an optional assistant `response`, and a timestamp. -/
structure MsgEntry where
  message : String
  response : Option String
  timestamp : String
deriving DecidableEq, Repr

/-- The ChatPage component state relevant to `handleSendMessage`:
the message list, the typed input and the in-flight flag. -/
structure PageState where
  messages : List MsgEntry
  inputMessage : String
  isLoading : Bool
deriving DecidableEq, Repr

/-- `handleSendMessage` of ChatPage.tsx.  The network is modelled by the
`resp` the embedded `sendChatMessage` will observe; `now` stands for the
timestamps taken during the call.  Returns the resulting state and whether
a backend request was issued.  The guard returns unchanged when the trimmed
input is empty or a request is already in flight; otherwise the user turn is
appended, the input cleared, and the assistant turn (or the catch branch's
error reply) appended. -/
def handleSendMessage (st : PageState) (lang : Lang) (resp : HttpResponse)
    (now : String) : PageState × Bool :=
  if jsTrim st.inputMessage == "" || st.isLoading then
    (st, false)
  else
    let userMessage := jsTrim st.inputMessage
    let afterUser : PageState :=
      { messages :=
          st.messages ++ [{ message := userMessage, response := none, timestamp := now }]
        inputMessage := ""
        isLoading := true }
    match sendChatMessage resp now with
    | Except.ok m =>
        ({ afterUser with
            messages :=
              afterUser.messages ++
                [{ message := "", response := m.response, timestamp := now }]
            isLoading := false }, true)
    | Except.error e =>
        ({ afterUser with
            messages :=
              afterUser.messages ++
                [{ message := ""
                   response := some (chatErrorReply lang (some (apiErrorMessage e)))
                   timestamp := now }]
            isLoading := false }, true)

/-! ### Spec-modelled retrieval-and-generation core

None of the following components exist in the repository sources; they are
modelled from the specification's component design (sections 3, 4.2, 4.4,
4.6, 4.7). -/

/-- Role of a conversation turn: user or assistant. -/
inductive Role
  | user
  | assistant
deriving DecidableEq, Repr

/-- Modelled from the spec: a `ConversationTurn`
(role, text, timestamp); the Session window is an ordered list of these. -/
structure ConversationTurn where
  role : Role
  text : String
  timestamp : Nat
deriving DecidableEq, Repr

/-- Modelled from the spec: `appendTurn` of the Session layer, whose window
is an ordered, bounded sliding window with the oldest turns evicted first.
The new turn is appended and the list is trimmed from the front to the
configured maximum. -/
def appendTurn (window : List ConversationTurn) (maxTurns : Nat)
    (t : ConversationTurn) : List ConversationTurn :=
  let w := window ++ [t]
  w.drop (w.length - maxTurns)

/-- Modelled from the spec: an entry of a `RetrievalResult` —
record id, normalized similarity score, and the record's `year` used for
tie-breaking.  Scores are idealized as rationals. -/
structure ScoredRecord where
  id : Nat
  score : ℚ
  year : ℤ
deriving DecidableEq, Repr

/-- Modelled from the spec: the ranking order of a `RetrievalResult` —
higher score first, ties broken by corpus recency (newer year first). -/
def rankLE (a b : ScoredRecord) : Prop :=
  b.score < a.score ∨ (a.score = b.score ∧ b.year ≤ a.year)

instance rankLE.decRel : DecidableRel rankLE := fun a b =>
  decidable_of_iff (b.score < a.score ∨ (a.score = b.score ∧ b.year ≤ a.year))
    Iff.rfl

instance rankLE.total : IsTotal ScoredRecord rankLE where
  total a b := by
    rcases lt_trichotomy a.score b.score with h | h | h
    · exact Or.inr (Or.inl h)
    · rcases le_total a.year b.year with hy | hy
      · exact Or.inr (Or.inr ⟨h.symm, hy⟩)
      · exact Or.inl (Or.inr ⟨h, hy⟩)
    · exact Or.inl (Or.inl h)

instance rankLE.trans : IsTrans ScoredRecord rankLE where
  trans a b c hab hbc := by
    rcases hab with hab | ⟨hab, hyab⟩
    · rcases hbc with hbc | ⟨hbc, _⟩
      · exact Or.inl (hbc.trans hab)
      · exact Or.inl (hbc ▸ hab)
    · rcases hbc with hbc | ⟨hbc, hybc⟩
      · exact Or.inl (hab ▸ hbc)
      · exact Or.inr ⟨hab.trans hbc, hybc.trans hyab⟩

/-- Modelled from the spec: the Vector Index `search` operation.  Cosine
scoring of the query vector against each indexed record is abstracted as the
`score` field of each candidate; `search` keeps the candidates clearing the
similarity threshold, orders them by rank (non-increasing score, newer year
first on ties), and returns at most `k` of them. -/
def search (candidates : List ScoredRecord) (k : Nat) (threshold : ℚ) :
    List ScoredRecord :=
  (((candidates.filter fun r => decide (threshold ≤ r.score)).insertionSort
      rankLE).take k)

/-- Modelled from the spec: the Orchestrator's response object —
response text plus structured citations (record ids). -/
structure ChatResponse where
  text : String
  citations : List Nat
deriving DecidableEq, Repr

/-- Modelled from the spec: the Orchestrator's respond step.  The Generator
is abstracted as the supplied `genText`.  An empty retrieval means no
grounding is available: the response falls back to the ungrounded path with
an empty citations list; otherwise the retrieved record ids are cited. -/
def orchestrate (genText : String) (results : List ScoredRecord) :
    ChatResponse :=
  if results.isEmpty then
    { text := genText, citations := [] }
  else
    { text := genText, citations := results.map fun r => r.id }

/-- Modelled from the spec: a retrieved book summary as the Context Composer
sees it — the record id and the summary's length in tokens.  The input list
is a `RetrievalResult`, already ordered by rank (best first). -/
structure BookSummary where
  id : Nat
  tokens : Nat
deriving DecidableEq, Repr

/-- Modelled from the spec: a history turn as the Context Composer sees it —
its length in tokens.  History lists are ordered oldest first, most recent
last. -/
structure HistTurn where
  tokens : Nat
deriving DecidableEq, Repr

/-- Token count of a list of book summaries. -/
def sumTokensB (bs : List BookSummary) : Nat := (bs.map fun b => b.tokens).sum

/-- Token count of a list of history turns. -/
def sumTokensT (ts : List HistTurn) : Nat := (ts.map fun t => t.tokens).sum

/-- Modelled from the spec: the Composer's history trimming — drop oldest
turns (the front of the list) until the remaining turns fit the available
token budget. -/
def fitHistory (avail : Nat) : List HistTurn → List HistTurn
  | [] => []
  | h :: t =>
    if sumTokensT (h :: t) ≤ avail then h :: t else fitHistory avail t

/-- Truncate a book summary to at most `maxTokens` tokens. -/
def truncateSummary (b : BookSummary) (maxTokens : Nat) : BookSummary :=
  { b with tokens := min b.tokens maxTokens }

/-- Modelled from the spec: book-summary trimming on the reversed
(lowest-score-first) list — drop lowest-score summaries until the rest fit;
when only the top-ranked summary remains it is truncated, never dropped. -/
def fitBooksAux (maxTokens : Nat) : List BookSummary → List BookSummary
  | [] => []
  | [b] => [truncateSummary b maxTokens]
  | b :: rest =>
    if sumTokensB (b :: rest) ≤ maxTokens then b :: rest
    else fitBooksAux maxTokens rest

/-- Modelled from the spec: trim a ranked book-summary list to the token
budget by dropping the least relevant (last) summaries first, truncating the
top summary only when it alone exceeds the budget. -/
def fitBooks (maxTokens : Nat) (bs : List BookSummary) : List BookSummary :=
  (fitBooksAux maxTokens bs.reverse).reverse

/-- Modelled from the spec: the composed grounding context — retained book
summaries (ordered by score) followed by the retained history turns. -/
structure ContextBlock where
  books : List BookSummary
  turns : List HistTurn
deriving DecidableEq, Repr

/-- Token length of a composed context. -/
def contextTokens (c : ContextBlock) : Nat :=
  sumTokensB c.books + sumTokensT c.turns

/-- Modelled from the spec: the Context Composer's `compose` — book
summaries ordered by score followed by the most recent history turns,
trimmed to `maxTokens` by first dropping the oldest history turns, then by
trimming the lowest-score book summaries (the top-ranked summary is
truncated rather than dropped). -/
def compose (retrieval : List BookSummary) (history : List HistTurn)
    (maxTokens : Nat) : ContextBlock :=
  if sumTokensB retrieval +
      sumTokensT (fitHistory (maxTokens - sumTokensB retrieval) history) ≤ maxTokens then
    { books := retrieval
      turns := fitHistory (maxTokens - sumTokensB retrieval) history }
  else
    { books := fitBooks maxTokens retrieval, turns := [] }

/-! ### Helper lemmas -/

/-- A string of positive length is not the empty string. -/
theorem string_ne_empty_of_length_pos {s : String} (h : 0 < s.length) :
    s ≠ "" := by
  intro he
  rw [he] at h
  exact absurd h (by decide)

/-- Success characterization of the embedded `sendChatMessage`. -/
theorem sendChatMessage_ok_iff (resp : HttpResponse) (now : String)
    (msg : ChatMessage) :
    sendChatMessage resp now = Except.ok msg ↔
      resp.ok = true ∧ resp.body.success = true ∧
        msg = { message := resp.body.user_message
                response := some resp.body.response
                timestamp := some now } := by
  cases hok : resp.ok <;> cases hs : resp.body.success <;>
    simp [sendChatMessage, hok, hs, eq_comm]

/-! ### Claim C1 -/

/-- C1 counterexample: the JSON body `sendChatMessage` posts to `/api/chat`
for a concrete message carries no session identifier — its keys are only
`message` and `language`. -/
theorem chat_request_lacks_session_id :
    "session_id" ∉ (chatRequestFields "hello" (some "en")).map Prod.fst := by
  decide

/-- C1 (amended): per chat turn the UI sends only the query (under the key
`message`) and the language — no session identifier — and on success the
value returned to the caller carries the echoed user message, the response
text and a timestamp, with no citations list. -/
theorem chat_interface_shape (m l : String) (resp : HttpResponse)
    (now : String) (msg : ChatMessage)
    (h : sendChatMessage resp now = Except.ok msg) :
    (chatRequestFields m (some l)).map Prod.fst = ["message", "language"]
    ∧ "session_id" ∉ (chatRequestFields m (some l)).map Prod.fst
    ∧ msg = { message := resp.body.user_message
              response := some resp.body.response
              timestamp := some now } := by
  refine ⟨rfl, ?_, ?_⟩
  · show "session_id" ∉ ["message", "language"]
    decide
  · exact ((sendChatMessage_ok_iff resp now msg).1 h).2.2

/-- Witness for `chat_interface_shape` at a concrete response. -/
theorem chat_interface_shape_witness :
    (chatRequestFields "hello" (some "en")).map Prod.fst = ["message", "language"]
    ∧ "session_id" ∉ (chatRequestFields "hello" (some "en")).map Prod.fst
    ∧ (ChatMessage.mk "hi" (some "ok") (some "t")) =
        { message := "hi", response := some "ok", timestamp := some "t" } :=
  chat_interface_shape "hello" "en" ⟨true, 200, ⟨true, none, "hi", "ok"⟩⟩ "t"
    ⟨"hi", some "ok", some "t"⟩ (by rfl)

/-! ### Claim C8 -/

/-- C8: `sendChatMessage` resolves exactly when the HTTP response is ok and
the body's success flag is true; the resolved value carries the body's
`user_message` and `response`; in every other case it throws. -/
theorem sendChatMessage_success_contract (resp : HttpResponse) (now : String) :
    ((∃ msg, sendChatMessage resp now = Except.ok msg) ↔
      (resp.ok = true ∧ resp.body.success = true))
    ∧ (∀ msg, sendChatMessage resp now = Except.ok msg →
        msg.message = resp.body.user_message
          ∧ msg.response = some resp.body.response)
    ∧ (¬(resp.ok = true ∧ resp.body.success = true) →
        ∃ e, sendChatMessage resp now = Except.error e) := by
  refine ⟨⟨?_, ?_⟩, ?_, ?_⟩
  · rintro ⟨msg, hmsg⟩
    have := (sendChatMessage_ok_iff resp now msg).1 hmsg
    exact ⟨this.1, this.2.1⟩
  · rintro ⟨hok, hs⟩
    exact ⟨_, (sendChatMessage_ok_iff resp now _).2 ⟨hok, hs, rfl⟩⟩
  · intro msg hmsg
    have := (sendChatMessage_ok_iff resp now msg).1 hmsg
    rw [this.2.2]
    exact ⟨rfl, rfl⟩
  · intro hn
    cases hok : resp.ok
    · exact ⟨ApiError.httpError resp.status, by simp [sendChatMessage, hok]⟩
    · cases hs : resp.body.success
      · exact ⟨ApiError.backendError
          (resp.body.error.getD "Chat mesajı gönderilemedi"),
          by simp [sendChatMessage, hok, hs]⟩
      · exact absurd ⟨hok, hs⟩ hn

/-- Witness for `sendChatMessage_success_contract` at a concrete
successful response. -/
theorem sendChatMessage_success_contract_witness :
    (ChatMessage.mk "hi" (some "hello") (some "t")).message = "hi"
    ∧ (ChatMessage.mk "hi" (some "hello") (some "t")).response = some "hello" :=
  (sendChatMessage_success_contract
      ⟨true, 200, ⟨true, none, "hi", "hello"⟩⟩ "t").2.1
    ⟨"hi", some "hello", some "t"⟩ (by rfl)

/-! ### Claim C2 -/

/-- C2 counterexample: the reply ChatPage appends when a chat turn fails is
not a deterministic fallback — it surfaces the raw error message after the
localized label, so two different backend failures yield two different
replies. -/
theorem chatErrorReply_surfaces_raw_error :
    chatErrorReply Lang.en (some "HTTP error! status: 500")
        = "Error: HTTP error! status: 500"
    ∧ chatErrorReply Lang.en (some "HTTP error! status: 500")
        ≠ chatErrorReply Lang.en (some "HTTP error! status: 404") := by
  constructor
  · rfl
  · decide

/-- C2 (amended): when a chat turn fails, the reply appended for that turn
is the localized error label followed by the raw error message; it is never
empty, but it is not a deterministic fallback — the raw error text is
surfaced after the label. -/
theorem handleSendMessage_error_reply (st : PageState) (lang : Lang)
    (resp : HttpResponse) (now : String) (e : ApiError)
    (hmsg : jsTrim st.inputMessage ≠ "") (hload : st.isLoading = false)
    (herr : sendChatMessage resp now = Except.error e) :
    (handleSendMessage st lang resp now).1.messages.getLast? =
      some { message := ""
             response := some (chatErrorReply lang (some (apiErrorMessage e)))
             timestamp := now }
    ∧ chatErrorReply lang (some (apiErrorMessage e))
        = errorLabel lang ++ " " ++ apiErrorMessage e
    ∧ chatErrorReply lang (some (apiErrorMessage e)) ≠ "" := by
  have hcond : (jsTrim st.inputMessage == "" || st.isLoading) = false := by
    simp [hload, hmsg]
  refine ⟨?_, rfl, ?_⟩
  · simp only [handleSendMessage, hcond, Bool.false_eq_true, if_false, herr]
    exact List.getLast?_concat _
  · apply string_ne_empty_of_length_pos
    have h1 : (" " : String).length = 1 := by decide
    simp only [chatErrorReply, Option.getD_some, String.length_append, h1]
    omega

/-- Witness for `handleSendMessage_error_reply` at a concrete failed
request. -/
theorem handleSendMessage_error_reply_witness :
    (handleSendMessage ⟨[], "hello", false⟩ Lang.en
        ⟨false, 500, ⟨false, none, "", ""⟩⟩ "t").1.messages.getLast? =
      some { message := ""
             response := some (chatErrorReply Lang.en
               (some (apiErrorMessage (ApiError.httpError 500))))
             timestamp := "t" }
    ∧ chatErrorReply Lang.en (some (apiErrorMessage (ApiError.httpError 500)))
        = errorLabel Lang.en ++ " " ++ apiErrorMessage (ApiError.httpError 500)
    ∧ chatErrorReply Lang.en (some (apiErrorMessage (ApiError.httpError 500)))
        ≠ "" :=
  handleSendMessage_error_reply ⟨[], "hello", false⟩ Lang.en
    ⟨false, 500, ⟨false, none, "", ""⟩⟩ "t" (ApiError.httpError 500)
    (by decide) rfl (by rfl)

/-! ### Claim C9 -/

/-- C9: when the typed message trims to empty or a request is already in
flight, `handleSendMessage` changes nothing — the state (message list
included) is returned unchanged and no backend request is issued. -/
theorem handleSendMessage_guard (st : PageState) (lang : Lang)
    (resp : HttpResponse) (now : String)
    (h : jsTrim st.inputMessage = "" ∨ st.isLoading = true) :
    handleSendMessage st lang resp now = (st, false) := by
  have hcond : (jsTrim st.inputMessage == "" || st.isLoading) = true := by
    rcases h with h | h
    · simp [h]
    · simp [h]
  simp [handleSendMessage, hcond]

/-- Witness for `handleSendMessage_guard` with a request in flight. -/
theorem handleSendMessage_guard_witness :
    handleSendMessage ⟨[], "hello", true⟩ Lang.en
        ⟨true, 200, ⟨true, none, "", ""⟩⟩ "t"
      = (⟨[], "hello", true⟩, false) :=
  handleSendMessage_guard ⟨[], "hello", true⟩ Lang.en
    ⟨true, 200, ⟨true, none, "", ""⟩⟩ "t" (Or.inr rfl)

/-! ### Claim C3 -/

/-- C3: the session window is a bounded sliding window — appending a turn
never lets the window exceed the configured size; at capacity the oldest
turn is evicted, below capacity the turn is appended in order. -/
theorem appendTurn_window_invariant (window : List ConversationTurn)
    (maxTurns : Nat) (t : ConversationTurn)
    (hk : 0 < maxTurns) (hw : window.length ≤ maxTurns) :
    (appendTurn window maxTurns t).length ≤ maxTurns
    ∧ (window.length = maxTurns →
        appendTurn window maxTurns t = window.drop 1 ++ [t])
    ∧ (window.length < maxTurns →
        appendTurn window maxTurns t = window ++ [t]) := by
  refine ⟨?_, ?_, ?_⟩
  · simp only [appendTurn, List.length_drop, List.length_append,
      List.length_cons, List.length_nil]
    omega
  · intro hfull
    have h1 : (window ++ [t]).length - maxTurns = 1 := by
      simp only [List.length_append, List.length_cons, List.length_nil]
      omega
    simp only [appendTurn, h1]
    exact List.drop_append_of_le_length (by omega)
  · intro hlt
    have h0 : window.length + 1 - maxTurns = 0 := by omega
    simp [appendTurn, h0]

/-- Witness for `appendTurn_window_invariant` at a full two-turn window. -/
theorem appendTurn_window_invariant_witness :
    (appendTurn [⟨Role.user, "a", 0⟩, ⟨Role.assistant, "b", 1⟩] 2
      ⟨Role.user, "c", 2⟩).length ≤ 2 :=
  (appendTurn_window_invariant
    [⟨Role.user, "a", 0⟩, ⟨Role.assistant, "b", 1⟩] 2 ⟨Role.user, "c", 2⟩
    (by decide) (by decide)).1

/-! ### Claim C4 -/

/-- C4: every record returned by `search` clears the similarity threshold,
and the result is never padded — its length is the minimum of `k` and the
number of candidates clearing the threshold, hence below `k` when fewer
than `k` clear it. -/
theorem search_threshold_invariant (candidates : List ScoredRecord) (k : Nat)
    (threshold : ℚ) :
    (∀ r ∈ search candidates k threshold, threshold ≤ r.score)
    ∧ (search candidates k threshold).length
        = min k (candidates.filter fun r => decide (threshold ≤ r.score)).length
    ∧ ((candidates.filter fun r => decide (threshold ≤ r.score)).length < k →
        (search candidates k threshold).length < k) := by
  have hlen : (search candidates k threshold).length
      = min k (candidates.filter fun r => decide (threshold ≤ r.score)).length := by
    simp [search, List.length_take]
  refine ⟨?_, hlen, ?_⟩
  · intro r hr
    have h1 : r ∈ (candidates.filter fun r =>
        decide (threshold ≤ r.score)).insertionSort rankLE :=
      List.mem_of_mem_take hr
    have h2 := (List.mem_insertionSort rankLE).1 h1
    exact of_decide_eq_true (List.mem_filter.1 h2).2
  · intro hlt
    rw [hlen]
    exact lt_of_le_of_lt (Nat.min_le_right _ _) hlt

/-- Witness for `search_threshold_invariant`: the top record of a concrete
search clears the threshold. -/
theorem search_threshold_invariant_witness :
    (3 : ℚ) ≤ (ScoredRecord.mk 1 (9 : ℚ) 1965).score :=
  (search_threshold_invariant
    [⟨1, (9 : ℚ), 1965⟩, ⟨2, (1 : ℚ), 1951⟩] 2 (3 : ℚ)).1
    ⟨1, (9 : ℚ), 1965⟩ (by decide)

/-! ### Claim C5 -/

/-- C5: a `search` result is ordered with non-increasing scores, records of
equal score ordered by newer year first, and has length at most `k`. -/
theorem search_ordering_invariant (candidates : List ScoredRecord) (k : Nat)
    (threshold : ℚ) :
    (search candidates k threshold).Pairwise
      (fun a b => b.score ≤ a.score ∧ (a.score = b.score → b.year ≤ a.year))
    ∧ (search candidates k threshold).length ≤ k := by
  constructor
  · have hs : ((candidates.filter fun r =>
        decide (threshold ≤ r.score)).insertionSort rankLE).Pairwise rankLE :=
      List.sorted_insertionSort rankLE _
    have ht : (search candidates k threshold).Pairwise rankLE :=
      hs.sublist (List.take_sublist _ _)
    refine ht.imp ?_
    intro a b hab
    rcases hab with hab | ⟨hab, hy⟩
    · exact ⟨le_of_lt hab, fun heq => absurd (heq ▸ hab) (lt_irrefl _)⟩
    · exact ⟨hab.ge, fun _ => hy⟩
  · simp only [search, List.length_take]
    exact Nat.min_le_left _ _

/-- Witness for `search_ordering_invariant`: a concrete search returns at
most two records. -/
theorem search_ordering_invariant_witness :
    (search [⟨1, (9 : ℚ), 1965⟩, ⟨2, (9 : ℚ), 1951⟩, ⟨3, (4 : ℚ), 2001⟩]
      2 (3 : ℚ)).length ≤ 2 :=
  (search_ordering_invariant
    [⟨1, (9 : ℚ), 1965⟩, ⟨2, (9 : ℚ), 1951⟩, ⟨3, (4 : ℚ), 2001⟩]
    2 (3 : ℚ)).2

/-! ### Claim C6 -/

/-- The history turns kept by `fitHistory` fit the available budget. -/
theorem sumTokensT_fitHistory_le (avail : Nat) (ts : List HistTurn) :
    sumTokensT (fitHistory avail ts) ≤ avail := by
  induction ts with
  | nil => simp [fitHistory, sumTokensT]
  | cons h t ih =>
    by_cases hc : sumTokensT (h :: t) ≤ avail
    · simp [fitHistory, hc]
    · simpa [fitHistory, hc] using ih

/-- The book summaries kept by `fitBooksAux` fit the token budget. -/
theorem sumTokensB_fitBooksAux_le (maxTokens : Nat) (bs : List BookSummary) :
    sumTokensB (fitBooksAux maxTokens bs) ≤ maxTokens := by
  induction bs with
  | nil => simp [fitBooksAux, sumTokensB]
  | cons b rest ih =>
    cases rest with
    | nil =>
      simp only [fitBooksAux, truncateSummary, sumTokensB, List.map_cons,
        List.map_nil, List.sum_cons, List.sum_nil]
      omega
    | cons b2 rest2 =>
      by_cases hc : sumTokensB (b :: b2 :: rest2) ≤ maxTokens
      · simp [fitBooksAux, hc]
      · simpa [fitBooksAux, hc] using ih

/-- Reversal preserves the token count of a book-summary list. -/
theorem sumTokensB_reverse (bs : List BookSummary) :
    sumTokensB bs.reverse = sumTokensB bs := by
  simp [sumTokensB, List.sum_reverse]

/-- `fitBooksAux` keeps the last summary of a nonempty list, up to
truncation: the id of the last kept summary is the id of the last input
summary. -/
theorem fitBooksAux_getLast_id (maxTokens : Nat) (bs : List BookSummary) :
    ((fitBooksAux maxTokens bs).getLast?).map (fun b => b.id)
      = (bs.getLast?).map (fun b => b.id) := by
  induction bs with
  | nil => rfl
  | cons b rest ih =>
    cases rest with
    | nil => simp [fitBooksAux, truncateSummary]
    | cons b2 rest2 =>
      by_cases hc : sumTokensB (b :: b2 :: rest2) ≤ maxTokens
      · simp [fitBooksAux, hc]
      · rw [show fitBooksAux maxTokens (b :: b2 :: rest2)
              = fitBooksAux maxTokens (b2 :: rest2) from by
            simp [fitBooksAux, hc],
          List.getLast?_cons_cons]
        exact ih

/-- `fitBooks` keeps the head (top-ranked) summary of a nonempty list, up
to truncation. -/
theorem fitBooks_head_id (maxTokens : Nat) (bs : List BookSummary) :
    ((fitBooks maxTokens bs).head?).map (fun b => b.id)
      = (bs.head?).map (fun b => b.id) := by
  unfold fitBooks
  rw [List.head?_reverse, fitBooksAux_getLast_id, List.getLast?_reverse]

/-- The book summaries kept by `fitBooks` fit the token budget. -/
theorem sumTokensB_fitBooks_le (maxTokens : Nat) (bs : List BookSummary) :
    sumTokensB (fitBooks maxTokens bs) ≤ maxTokens := by
  unfold fitBooks
  rw [sumTokensB_reverse]
  exact sumTokensB_fitBooksAux_le maxTokens bs.reverse

/-- C6: the composed context never exceeds the token budget, and whenever
the retrieval is nonempty the top-ranked book is retained at the head of
the composed context (possibly truncated, never dropped in favour of
history). -/
theorem compose_bounded_top_retained (retrieval : List BookSummary)
    (history : List HistTurn) (maxTokens : Nat) :
    contextTokens (compose retrieval history maxTokens) ≤ maxTokens
    ∧ (∀ b rest, retrieval = b :: rest →
        ∃ b2 rest2, (compose retrieval history maxTokens).books = b2 :: rest2
          ∧ b2.id = b.id) := by
  constructor
  · by_cases hc : sumTokensB retrieval +
        sumTokensT (fitHistory (maxTokens - sumTokensB retrieval) history)
          ≤ maxTokens
    · simp [compose, contextTokens, hc]
    · simp only [compose, contextTokens, hc, if_false]
      simpa [sumTokensT] using sumTokensB_fitBooks_le maxTokens retrieval
  · intro b rest hret
    subst hret
    have hhead : ((compose (b :: rest) history maxTokens).books.head?).map
        (fun x => x.id) = some b.id := by
      by_cases hc : sumTokensB (b :: rest) +
          sumTokensT (fitHistory (maxTokens - sumTokensB (b :: rest)) history)
            ≤ maxTokens
      · simp [compose, hc]
      · simp only [compose, hc, if_false]
        rw [fitBooks_head_id maxTokens (b :: rest)]
        rfl
    cases hb : (compose (b :: rest) history maxTokens).books with
    | nil => rw [hb] at hhead; simp at hhead
    | cons b2 rest2 =>
      refine ⟨b2, rest2, rfl, ?_⟩
      rw [hb] at hhead
      simpa using hhead

/-- Witness for `compose_bounded_top_retained`: a concrete composition
stays within its seven-token budget. -/
theorem compose_bounded_top_retained_witness :
    contextTokens (compose [⟨1, 5⟩, ⟨2, 4⟩] [⟨3⟩, ⟨2⟩] 7) ≤ 7 :=
  (compose_bounded_top_retained [⟨1, 5⟩, ⟨2, 4⟩] [⟨3⟩, ⟨2⟩] 7).1

/-! ### Claim C7 -/

/-- C7: when no candidate clears the similarity threshold (in particular
when the corpus is empty), `search` returns the empty result and the
Orchestrator's response falls back to the ungrounded path with an empty
citations list — no citation is fabricated. -/
theorem empty_retrieval_no_citations (genText : String)
    (candidates : List ScoredRecord) (k : Nat) (threshold : ℚ)
    (h : ∀ r ∈ candidates, r.score < threshold) :
    search candidates k threshold = []
    ∧ (orchestrate genText (search candidates k threshold)).citations = [] := by
  have hfil : candidates.filter (fun r => decide (threshold ≤ r.score)) = [] := by
    rw [List.filter_eq_nil_iff]
    intro a ha
    simp only [decide_eq_true_eq]
    exact not_le.2 (h a ha)
  have hs : search candidates k threshold = [] := by
    simp [search, hfil]
  exact ⟨hs, by simp [hs, orchestrate]⟩

/-- Witness for `empty_retrieval_no_citations` at a concrete corpus whose
only record scores below the threshold. -/
theorem empty_retrieval_no_citations_witness :
    search [⟨1, (1 : ℚ), 2000⟩] 10 (3 : ℚ) = []
    ∧ (orchestrate "fallback"
        (search [⟨1, (1 : ℚ), 2000⟩] 10 (3 : ℚ))).citations = [] :=
  empty_retrieval_no_citations "fallback" [⟨1, (1 : ℚ), 2000⟩] 10
    (3 : ℚ) (by decide)

end Luminis
